import Mathlib

/-!
Verification of the GitHub-trending extension's scrape + fetch + cache
subsystem (`src/cache-manager.js`, `src/data-fetcher.js`).

The JavaScript is shallowly embedded: DOM nodes become explicit structures
holding the results the CSS selectors would return, the network becomes an
explicit outcome value, promise scheduling becomes a step-by-step simulation
of the event loop, and JavaScript exceptions become `Except`.  All
definitions are executable so concrete runs can be settled by `decide`.
-/

namespace GHTrend

/-! ### JavaScript string primitives

The parser calls `trim`, `split('/')`, `replace(/,/g, '')`, `toLowerCase`,
`includes` and `parseInt`.  They are modelled on `List Char` so proofs
reduce well. -/

/-- JS `String.prototype.trim` (whitespace stripped from both ends). -/
def jsTrimList (cs : List Char) : List Char :=
  ((cs.dropWhile Char.isWhitespace).reverse.dropWhile Char.isWhitespace).reverse

/-- JS `String.prototype.trim` on `String`. -/
def jsTrim (s : String) : String := ⟨jsTrimList s.data⟩

/-- JS `String.prototype.split` with a one-character separator:
`"".split(c) = [""]`, separators at the ends produce empty fields. -/
def splitChar (c : Char) : List Char → List (List Char)
  | [] => [[]]
  | x :: xs =>
    match splitChar c xs with
    | [] => [[]]
    | g :: gs => if x = c then [] :: g :: gs else (x :: g) :: gs

/-- JS `s.replace(/,/g, '')`: delete every comma. -/
def removeCommas (s : String) : String := ⟨s.data.filter (fun c => c ≠ ',')⟩

/-- Digit-string value, most significant first. -/
def digitsToNat (cs : List Char) : Nat :=
  cs.foldl (fun acc c => acc * 10 + (c.toNat - 48)) 0

/-- JS `parseInt(s)` (radix 10): skip leading whitespace, optional sign,
then a maximal digit run; `none` models `NaN`. -/
def parseIntJS (s : String) : Option Int :=
  let cs := s.data.dropWhile Char.isWhitespace
  let signed : Bool × List Char :=
    match cs with
    | '-' :: rest => (true, rest)
    | '+' :: rest => (false, rest)
    | rest => (false, rest)
  let digits := signed.2.takeWhile Char.isDigit
  if digits.isEmpty then none
  else
    let n : Int := Int.ofNat (digitsToNat digits)
    some (if signed.1 then -n else n)

/-- JS `parseInt(s) || 0`: `NaN` collapses to `0` (and `0` stays `0`). -/
def parseIntOr0 (s : String) : Int := (parseIntJS s).getD 0

/-- JS `String.prototype.toLowerCase` (ASCII range, as used here). -/
def toLowerJS (s : String) : String := ⟨s.data.map Char.toLower⟩

/-- Substring containment on character lists. -/
def hasInfix : List Char → List Char → Bool
  | s, pat =>
    match s with
    | [] => pat.isEmpty
    | _ :: rest => pat.isPrefixOf s || hasInfix rest pat

/-- JS `String.prototype.includes`: substring containment. -/
def includesJS (s pat : String) : Bool := hasInfix s.data pat.data

/-! ### Cache manager (`src/cache-manager.js`)

`CacheManager` holds a `Map` keyed by `generateKey(language, timeRange)`.
Time (`Date.now()`) is passed explicitly as `now : Int`.  The payload type
is a parameter `α` (the app stores `List Record`). -/

/-- The constructor's `this.defaultTTL = 10 * 60 * 1000`. -/
def jsDefaultTTL : Int := 10 * 60 * 1000

/-- One cache entry: `{ data, timestamp, ttl }` as stored by `set`. -/
structure CacheEntry (α : Type) where
  data : α
  timestamp : Int
  ttl : Int
deriving Repr, DecidableEq

/-- The `Map` behind `this.cache`, as an insertion-ordered association
list. -/
def CacheMap (α : Type) := List (String × CacheEntry α)

/-- `Map.prototype.set`: replace in place if the key exists, else append. -/
def mapSet {α : Type} (m : CacheMap α) (k : String) (v : CacheEntry α) :
    CacheMap α :=
  match m with
  | [] => [(k, v)]
  | (k₀, v₀) :: rest =>
    if k₀ = k then (k, v) :: rest else (k₀, v₀) :: mapSet rest k v

/-- `Map.prototype.get`. -/
def mapGet {α : Type} (m : CacheMap α) (k : String) : Option (CacheEntry α) :=
  match m with
  | [] => none
  | (k₀, v₀) :: rest => if k₀ = k then some v₀ else mapGet rest k

/-- `generateKey(language, timeRange)`:
`` `${language || 'all'}-${timeRange}` `` — `null` and the empty string are
falsy, so both collapse to `'all'`. -/
def generateKey (language : Option String) (timeRange : String) : String :=
  (match language with
   | none => "all"
   | some l => if l = "" then "all" else l) ++ "-" ++ timeRange

/-- `get(language, timeRange)`. -/
def cacheGet {α : Type} (m : CacheMap α) (language : Option String)
    (timeRange : String) : Option (CacheEntry α) :=
  mapGet m (generateKey language timeRange)

/-- `set(language, timeRange, data, ttl = this.defaultTTL)`, stamping
`timestamp = Date.now()` (the `now` argument). -/
def cacheSet {α : Type} (m : CacheMap α) (language : Option String)
    (timeRange : String) (data : α) (ttl : Int) (now : Int) : CacheMap α :=
  mapSet m (generateKey language timeRange) ⟨data, now, ttl⟩

/-- The `customTTL || cacheEntry.ttl || this.defaultTTL` chain:
`null` and `0` are falsy, so a zero TTL falls through to the next choice. -/
def resolveTTL (entryTTL : Int) (customTTL : Option Int) : Int :=
  match customTTL with
  | some c => if c ≠ 0 then c else if entryTTL ≠ 0 then entryTTL else jsDefaultTTL
  | none => if entryTTL ≠ 0 then entryTTL else jsDefaultTTL

/-- `isValid(cacheEntry, customTTL = null)`:
`false` on a missing entry, else `(Date.now() - cacheEntry.timestamp) < ttl`. -/
def isValid {α : Type} (entry : Option (CacheEntry α)) (customTTL : Option Int)
    (now : Int) : Bool :=
  match entry with
  | none => false
  | some e => decide (now - e.timestamp < resolveTTL e.ttl customTTL)

/-- `getValid(language, timeRange, customTTL = null)`: `get` + `isValid`,
returning the stored data or `null`. -/
def getValid {α : Type} (m : CacheMap α) (language : Option String)
    (timeRange : String) (customTTL : Option Int) (now : Int) : Option α :=
  let entry := cacheGet m language timeRange
  if isValid entry customTTL now then entry.map CacheEntry.data else none

/-! ### Trending-page parser (`parseTrendingHTML`, `src/data-fetcher.js`)

`DOMParser` and the CSS selectors are browser collaborators; an
`Article` records what each selector used by the parser would return on
one `article.Box-row` node, in document order where a list is kept. -/

/-- The `h2.h3 a` title anchor: its `textContent` and `getAttribute('href')`
(`none` models a missing attribute, which JS renders as `"null"` inside a
template literal). -/
structure TitleEl where
  text : String
  href : Option String
deriving Repr, DecidableEq

/-- An `img` element: its `src`. -/
structure ImgEl where
  src : String
deriving Repr, DecidableEq

/-- An anchor collected by `querySelectorAll('a[href^="/"]')` inside the
"Built by" container: its `href` attribute and nested `img` (if any). -/
structure LinkEl where
  href : String
  img : Option ImgEl
deriving Repr, DecidableEq

/-- A `span` descendant of the article: its `class` attribute, its
`textContent`, and the `a[href^="/"]` anchors found in
`span.parentElement || span` (used by the "Built by" extraction). -/
structure SpanEl where
  className : String
  text : String
  parentLinks : List LinkEl
deriving Repr, DecidableEq

/-- One `article.Box-row` node, holding each selector's result. -/
structure Article where
  /-- `article.querySelector('h2.h3 a')` -/
  titleElement : Option TitleEl
  /-- `article.querySelector('p.col-9')?.textContent` -/
  descriptionText : Option String
  /-- `article.querySelector('a[href$="/stargazers"]')?.textContent` -/
  starsText : Option String
  /-- `article.querySelector('span[itemprop="programmingLanguage"]')?.textContent` -/
  languageText : Option String
  /-- `article.querySelector('a[href$="/forks"]')?.textContent` -/
  forksText : Option String
  /-- all `span` descendants in document order -/
  spans : List SpanEl
  /-- `article.querySelector('img[src*="avatars"]')` -/
  avatarImg : Option ImgEl
deriving Repr, DecidableEq

/-- A contributor from the "Built by" section. -/
structure Developer where
  username : String
  avatar_url : String
  profile_url : String
deriving Repr, DecidableEq

/-- One parsed repository record, exactly the object literal returned per
article. -/
structure Record where
  full_name : String
  description : String
  stargazers_count : Int
  html_url : String
  language : String
  forks_count : Int
  period_stars : Int
  period_range : String
  avatar_url : String
  owner : String
  developers : List Developer
deriving Repr, DecidableEq

/-! #### The period-stars regular expression

`/(\d+(?:,\d+)*)\s+stars?\s+(today|this week|this month)/i`, with
JavaScript leftmost-first backtracking semantics.  A sub-matcher maps a
character list to the list of `(consumed, rest)` splits in backtracking
priority order. -/

/-- `\d+`, greedy: every nonempty prefix of the maximal digit run, longest
first. -/
def mDigits (cs : List Char) : List (List Char × List Char) :=
  let n := (cs.takeWhile Char.isDigit).length
  (List.range n).map (fun i => (cs.take (n - i), cs.drop (n - i)))

/-- Sequencing of two sub-matchers (priority order preserved). -/
def mSeq (m₁ m₂ : List Char → List (List Char × List Char))
    (cs : List Char) : List (List Char × List Char) :=
  (m₁ cs).flatMap (fun p =>
    (m₂ p.2).map (fun q => (p.1 ++ q.1, q.2)))

/-- Kleene star, greedy (more repetitions first); `fuel` bounds the
repetition count, and each repetition of the bodies used here consumes at
least one character so input length is always enough fuel. -/
def mStar (m : List Char → List (List Char × List Char)) :
    Nat → List Char → List (List Char × List Char)
  | 0, cs => [([], cs)]
  | fuel + 1, cs =>
    ((m cs).filter (fun p => p.2.length < cs.length)).flatMap
      (fun p => (mStar m fuel p.2).map (fun q => (p.1 ++ q.1, q.2)))
    ++ [([], cs)]

/-- A single literal character, case-insensitively (the `/i` flag). -/
def mCharCI (c : Char) (cs : List Char) : List (List Char × List Char) :=
  match cs with
  | [] => []
  | x :: rest => if x.toLower = c.toLower then [([x], rest)] else []

/-- A literal string, case-insensitively. -/
def mLitCI (pat : String) (cs : List Char) : List (List Char × List Char) :=
  (pat.data.foldr (fun c acc => mSeq (mCharCI c) acc) (fun l => [([], l)])) cs

/-- One whitespace character (`\s`). -/
def mWsChar (cs : List Char) : List (List Char × List Char) :=
  match cs with
  | [] => []
  | x :: rest => if x.isWhitespace then [([x], rest)] else []

/-- `\s+`: one whitespace character then greedily more. -/
def mWsPlus (cs : List Char) : List (List Char × List Char) :=
  mSeq mWsChar (fun l => mStar mWsChar l.length l) cs

/-- Capture group 1, `\d+(?:,\d+)*`: digits, then greedily repeated
comma-digit groups. -/
def mGroup1 (cs : List Char) : List (List Char × List Char) :=
  mSeq mDigits (fun l => mStar (mSeq (mCharCI ',') mDigits) l.length l) cs

/-- `stars?`: the literal `star` with an optional trailing `s` (greedy:
the `s` is consumed when possible). -/
def mStarsWord (cs : List Char) : List (List Char × List Char) :=
  mSeq (mLitCI "star")
    (fun l => mCharCI 's' l ++ [([], l)]) cs

/-- Capture group 2, `(today|this week|this month)`: alternatives tried
left to right. -/
def mPeriodWord (cs : List Char) : List (List Char × List Char) :=
  mLitCI "today" cs ++ mLitCI "this week" cs ++ mLitCI "this month" cs

/-- Try the whole pattern anchored at the given position; on success return
`(group1, group2)` for the highest-priority parse. -/
def matchPatternAt (cs : List Char) : Option (String × String) :=
  (mGroup1 cs).findSome? (fun g₁ =>
    (mWsPlus g₁.2).findSome? (fun w₁ =>
      (mStarsWord w₁.2).findSome? (fun st =>
        (mWsPlus st.2).findSome? (fun w₂ =>
          (mPeriodWord w₂.2).findSome? (fun g₂ =>
            some (⟨g₁.1⟩, ⟨g₂.1⟩))))))

/-- JS `text.match(re)` for the period-stars pattern: the leftmost match
wins; returns the two capture groups. -/
def periodStarsMatch (s : String) : Option (String × String) :=
  go s.data
where
  go : List Char → Option (String × String)
    | [] => none
    | cs@(_ :: rest) =>
      match matchPatternAt cs with
      | some r => some r
      | none => go rest

/-! #### Selector strategies for the period-stars span -/

/-- The whitespace-separated class tokens of a `class` attribute. -/
def classTokens (className : String) : List String :=
  (className.data.foldr
    (fun c acc =>
      match acc with
      | [] => if c.isWhitespace then [[]] else [[c]]
      | g :: gs => if c.isWhitespace then [] :: g :: gs else (c :: g) :: gs)
    [[]]).filterMap (fun g => if g.isEmpty then none else some (⟨g⟩ : String))

/-- `span.d-inline-block.float-sm-right`. -/
def stratStructural (s : SpanEl) : Bool :=
  (classTokens s.className).contains "d-inline-block"
    && (classTokens s.className).contains "float-sm-right"

/-- `span.float-sm-right`. -/
def stratRelaxed (s : SpanEl) : Bool :=
  (classTokens s.className).contains "float-sm-right"

/-- `span[class*="float"]`: attribute-value substring. -/
def stratAttr (s : SpanEl) : Bool :=
  includesJS s.className "float"

/-- The text-content fallback: `span.textContent.toLowerCase()` includes one
of the six phrase variants. -/
def stratText (s : SpanEl) : Bool :=
  let t := toLowerJS s.text
  includesJS t "stars today" || includesJS t "stars this week"
    || includesJS t "stars this month" || includesJS t "star today"
    || includesJS t "star this week" || includesJS t "star this month"

/-- The four strategies in order, each one tried only when the previous
found nothing (`if (!periodStarsElement)` chains); `querySelector` and
`find` both return the first matching span in document order. -/
def selectPeriodSpan (spans : List SpanEl) : Option SpanEl :=
  match spans.find? stratStructural with
  | some s => some s
  | none =>
    match spans.find? stratRelaxed with
    | some s => some s
    | none =>
      match spans.find? stratAttr with
      | some s => some s
      | none => spans.find? stratText

/-! #### Field extraction -/

/-- `element?.textContent.trim() || d`: a missing element or an
all-whitespace text falls back to the default. -/
def textOrDefault (o : Option String) (d : String) : String :=
  match o with
  | none => d
  | some t => if jsTrim t = "" then d else jsTrim t

/-- The `(periodStars, periodRange)` pair computed from the selected span's
text: one regular expression, group 1 de-comma-ed and parsed as an integer
(a digit string, so `parseInt` cannot yield `NaN`), group 2 kept verbatim;
`(0, '')` when there is no match. -/
def periodStarsOf (text : String) : Int × String :=
  match periodStarsMatch text with
  | some m => (parseIntOr0 (removeCommas m.1), m.2)
  | none => (0, "")

/-- `link.getAttribute('href').startsWith('/')`. -/
def startsWithSlash (s : String) : Bool :=
  match s.data with
  | '/' :: _ => true
  | _ => false

/-- The "Built by" contributors: the first span whose trimmed text includes
`Built by`; from its container's `a[href^="/"]` list, the first
`min(5, length)` links, keeping those with a nested `img` and a `/`-leading
href. -/
def extractDevelopers (spans : List SpanEl) : List Developer :=
  match spans.find? (fun s => includesJS (jsTrim s.text) "Built by") with
  | none => []
  | some builtBy =>
    (builtBy.parentLinks.take 5).filterMap (fun link =>
      match link.img with
      | none => none
      | some img =>
        if startsWithSlash link.href then
          some { username := ⟨link.href.data.drop 1⟩
                 avatar_url := img.src
                 profile_url := "https://github.com" ++ link.href }
        else none)

/-- The per-article body of the `Array.from(articles).map(...)` callback.
Two statements can throw a `TypeError`, modelled as `Except.error`:
`titleElement.textContent` when the title selector matched nothing, and
`repo.trim()` when the title text contains no `/` (destructuring then
leaves `repo` undefined). -/
def parseArticle (article : Article) : Except String Record :=
  match article.titleElement with
  | none => .error "TypeError: titleElement is null"
  | some titleElement =>
    let parts := splitChar '/' (jsTrimList titleElement.text.data)
    let owner : String := ⟨parts.headD []⟩
    let repoQ : Option String := (parts.get? 1).map (fun l => (⟨l⟩ : String))
    let description := textOrDefault article.descriptionText ""
    let stars := parseIntOr0 (removeCommas (textOrDefault article.starsText "0"))
    let language := textOrDefault article.languageText ""
    let forks := parseIntOr0 (removeCommas (textOrDefault article.forksText "0"))
    let periodStarsText := textOrDefault ((selectPeriodSpan article.spans).map SpanEl.text) ""
    let period := periodStarsOf periodStarsText
    let avatar :=
      match article.avatarImg with
      | some img => img.src
      | none => "https://github.com/" ++ jsTrim owner ++ ".png?size=40"
    let developers := extractDevelopers article.spans
    match repoQ with
    | none => .error "TypeError: repo is undefined"
    | some repo =>
      .ok { full_name := jsTrim owner ++ "/" ++ jsTrim repo
            description := description
            stargazers_count := stars
            html_url := "https://github.com" ++ titleElement.href.getD "null"
            language := language
            forks_count := forks
            period_stars := period.1
            period_range := period.2
            avatar_url := avatar
            owner := jsTrim owner
            developers := developers }

/-- `parseTrendingHTML`: map the callback over the article list; a throw in
any callback aborts the whole `map` (and hence the whole parse), and an
empty article list yields `[]`. -/
def parseTrendingHTML : List Article → Except String (List Record)
  | [] => .ok []
  | a :: rest =>
    match parseArticle a with
    | .error e => .error e
    | .ok r =>
      match parseTrendingHTML rest with
      | .error e => .error e
      | .ok rs => .ok (r :: rs)

/-! ### Single fetch (`fetchTrendingRepos`, `src/data-fetcher.js`)

The network is an external collaborator; a `FetchOutcome` models what the
`fetch` call delivers for the request: a timeout-triggered abort, a
transport rejection, or a response with a status code and a body (the body
already represented as its article nodes).  `Date.now()` is the explicit
`now`. -/

/-- What `await fetch(url, ...)` produced for this request. -/
inductive FetchOutcome where
  /-- the 5-second `AbortController` fired: `fetch` rejects with `AbortError` -/
  | timeout
  /-- transport failure: `fetch` rejects with a network error -/
  | networkError (msg : String)
  /-- a response arrived; `response.ok` is `200 ≤ status < 300` -/
  | response (status : Nat) (body : List Article)
deriving Repr, DecidableEq

/-- The `try` block of `fetchTrendingRepos`: every throw point becomes
`Except.error` — the two rejection outcomes, the explicit
`throw new Error('HTTP error! ...')` on `!response.ok`, and a `TypeError`
escaping `parseTrendingHTML`.  On the success path the parsed list is
cached when non-empty, then returned. -/
def fetchBody (cache : CacheMap (List Record)) (language : Option String)
    (timeRange : String) (outcome : FetchOutcome) (now : Int) :
    Except String (List Record × CacheMap (List Record)) :=
  match outcome with
  | .timeout => .error "AbortError"
  | .networkError msg => .error msg
  | .response status body =>
    if 200 ≤ status ∧ status < 300 then
      match parseTrendingHTML body with
      | .error e => .error e
      | .ok repos =>
        .ok (repos,
             if repos.length > 0 then cacheSet cache language timeRange repos jsDefaultTTL now
             else cache)
    else .error ("HTTP error! status: " ++ toString status)

/-- `fetchTrendingRepos(language, timeRange)`: the `catch` clause logs and
returns `[]`, leaving the cache untouched (the only `set` is the last
action of the `try` block, after every throw point). -/
def fetchTrendingRepos (cache : CacheMap (List Record)) (language : Option String)
    (timeRange : String) (outcome : FetchOutcome) (now : Int) :
    List Record × CacheMap (List Record) :=
  match fetchBody cache language timeRange outcome now with
  | .ok r => r
  | .error _ => ([], cache)

/-- `fetchWithCache(language, timeRange)`: `getValid` first (a cached array
is always truthy), else a fresh `fetchTrendingRepos`, whose return value is
passed through unchanged. -/
def fetchWithCache (cache : CacheMap (List Record)) (language : Option String)
    (timeRange : String) (outcome : FetchOutcome) (now : Int) :
    List Record × CacheMap (List Record) :=
  match getValid cache language timeRange none now with
  | some cachedData => (cachedData, cache)
  | none => fetchTrendingRepos cache language timeRange outcome now

/-! ### Concurrency-limited bulk fetch (`fetchMultipleConcurrent`)

The event loop is simulated step by step.  Calling
`this.fetchTrendingRepos(...)` launches the request at promise-creation
time; the loop body runs synchronously between `await` points, so promise
settlement is only observed while the loop is suspended inside
`await Promise.race(executing)`.  The simulation uses the slow-network
schedule: no request settles until a race blocks on a window with no
settled member, and then exactly one member (the earliest-created) settles.
`fetchTrendingRepos` never throws, so the `.catch` handler is dead code and
every promise settles to `{...request, repos, success: repos.length > 0}`;
`repos` for the i-th created promise is supplied by an oracle `net i`
(cache side effects are orthogonal here and modelled with `fetchBody`
above). -/

/-- A scheduling request: `{language, timeRange}`. -/
structure FetchRequest where
  language : Option String
  timeRange : String
deriving Repr, DecidableEq

/-- A settled bulk-fetch result: `{...request, repos, success}`. -/
structure FetchResult where
  language : Option String
  timeRange : String
  repos : List Record
  success : Bool
deriving Repr, DecidableEq

/-- The fulfilment value of one promise:
`.then(repos => ({...request, repos, success: repos.length > 0}))`. -/
def mkFetchResult (req : FetchRequest) (repos : List Record) : FetchResult :=
  { language := req.language
    timeRange := req.timeRange
    repos := repos
    success := decide (repos.length > 0) }

/-- Event-loop state of one `fetchMultipleConcurrent` run.  Promises are
named by creation index; `resultsArr` mirrors the `results` array (as
fulfilment values), `executing` the `executing` array, `settled` the set of
promises whose settlement the loop has observed, `trace` the number of
unresolved in-flight requests sampled right after each launch. -/
structure SimState where
  resultsArr : List FetchResult
  executing : List Nat
  settled : List Nat
  created : Nat
  trace : List Nat
deriving Repr, DecidableEq

/-- Requests launched but not yet settled. -/
def SimState.inFlight (st : SimState) : Nat := st.created - st.settled.length

/-- `await Promise.race(executing)` under the slow-network schedule: if some
member is already settled the race resolves at once; otherwise the loop
suspends until the earliest-created member settles. -/
def raceStep (st : SimState) : SimState :=
  if st.executing.any (fun j => st.settled.contains j) then st
  else
    match st.executing with
    | [] => st
    | j :: _ => { st with settled := st.settled ++ [j] }

/-- The window-management tail of one loop iteration, after the promise
with creation index `idx` has been launched and pushed onto `results`:
`if (results.length >= concurrencyLimit)` push it onto `executing`, and
`if (executing.length >= concurrencyLimit)` await `Promise.race(executing)`
and then `executing.splice(executing.findIndex(p => p === promise), 1)` —
which removes the promise created in this very iteration, not the settled
one. -/
def windowStep (limit idx : Nat) (st : SimState) : SimState :=
  if limit ≤ st.created then
    let pushed := { st with executing := st.executing ++ [idx] }
    if limit ≤ pushed.executing.length then
      let raced := raceStep pushed
      { raced with executing := raced.executing.erase idx }
    else pushed
  else st

/-- One iteration of `for (const request of requests)`:
`const promise = this.fetchTrendingRepos(...).then(...)` launches the
request immediately (its creation index is the current results length) and
`results.push(promise)`; the in-flight count is sampled at that instant;
then the window logic runs. -/
def simStep (net : Nat → List Record) (limit : Nat) (st : SimState)
    (req : FetchRequest) : SimState :=
  let launched := { st with
                    created := st.created + 1
                    resultsArr := st.resultsArr ++ [mkFetchResult req (net st.created)] }
  let sampled := { launched with trace := launched.trace ++ [launched.inFlight] }
  windowStep limit st.created sampled

/-- The whole `fetchMultipleConcurrent(requests, concurrencyLimit)` run
under the slow-network schedule; `Promise.all(results)` then yields
`resultsArr` in creation order. -/
def simFetchMany (net : Nat → List Record) (requests : List FetchRequest)
    (limit : Nat) : SimState :=
  requests.foldl (simStep net limit) ⟨[], [], [], 0, []⟩

/-- The value `fetchMultipleConcurrent` resolves to. -/
def fetchManyResults (net : Nat → List Record) (requests : List FetchRequest)
    (limit : Nat) : List FetchResult :=
  (simFetchMany net requests limit).resultsArr

/-! ### Bounded retry (`fetchWithRetry`) -/

/-- The `forEach` body: `results.findIndex(r => r.language ===
retryResult.language && r.timeRange === retryResult.timeRange)` and, when
found, in-place replacement — i.e. replace the first `(language,
timeRange)` match, if any. -/
def replaceFirstMatch (rr : FetchResult) : List FetchResult → List FetchResult
  | [] => []
  | r :: rest =>
    if r.language == rr.language && r.timeRange == rr.timeRange then rr :: rest
    else r :: replaceFirstMatch rr rest

/-- Splice every retry outcome back into the first-pass result array. -/
def spliceBack (results retryResults : List FetchResult) : List FetchResult :=
  retryResults.foldl (fun acc rr => replaceFirstMatch rr acc) results

/-- `fetchWithRetry(requests, concurrencyLimit, retryCount)`.  The network
oracle takes the retry round (0 = first pass) and the creation index within
that round's `fetchMultipleConcurrent` call.  When `retryCount > 0` and
some results have `success === false`, exactly those `(language,
timeRange)` pairs are re-fetched with `retryCount - 1` and spliced back;
recursion is structural in `retryCount`. -/
def fetchWithRetry (net : Nat → Nat → List Record) (limit : Nat) :
    Nat → Nat → List FetchRequest → List FetchResult
  | round, 0, requests => fetchManyResults (net round) requests limit
  | round, retryCount + 1, requests =>
    let results := fetchManyResults (net round) requests limit
    let failed := (results.filter (fun r => !r.success)).map
      (fun r => ({ language := r.language, timeRange := r.timeRange } : FetchRequest))
    if failed.length > 0 then
      spliceBack results (fetchWithRetry net limit (round + 1) retryCount failed)
    else results

/-! ### Concrete fixtures -/

/-- A period-stars span matched by the structural selector. -/
def goodSpanPeriod : SpanEl :=
  { className := "d-inline-block float-sm-right"
    text := "42 stars today"
    parentLinks := [] }

/-- A fully well-formed trending entry. -/
def goodArticle : Article :=
  { titleElement := some { text := "alice / widget", href := some "/alice/widget" }
    descriptionText := some " A tiny widget. "
    starsText := some "1,234"
    languageText := some "Rust"
    forksText := some "56"
    spans := [goodSpanPeriod]
    avatarImg := some { src := "https://avatars.githubusercontent.com/u/1?v=4" } }

/-- An entry node in which `querySelector('h2.h3 a')` finds nothing. -/
def titlelessArticle : Article :=
  { titleElement := none
    descriptionText := none
    starsText := none
    languageText := none
    forksText := none
    spans := []
    avatarImg := none }

/-- An entry whose title text contains no `/`. -/
def slashlessArticle : Article :=
  { titleElement := some { text := "standalone", href := some "/standalone" }
    descriptionText := none
    starsText := none
    languageText := none
    forksText := none
    spans := []
    avatarImg := none }

/-- A minimal repository record used as a successful oracle payload. -/
def dummyRec : Record :=
  { full_name := "o/r"
    description := ""
    stargazers_count := 1
    html_url := "https://github.com/o/r"
    language := ""
    forks_count := 0
    period_stars := 0
    period_range := ""
    avatar_url := ""
    owner := "o"
    developers := [] }

/-- Twelve distinct scheduling requests. -/
def reqs12 : List FetchRequest :=
  [⟨none, "daily"⟩, ⟨some "a", "daily"⟩, ⟨some "b", "daily"⟩,
   ⟨some "c", "daily"⟩, ⟨some "d", "daily"⟩, ⟨some "e", "daily"⟩,
   ⟨some "f", "daily"⟩, ⟨some "g", "daily"⟩, ⟨some "h", "daily"⟩,
   ⟨some "i", "daily"⟩, ⟨some "j", "daily"⟩, ⟨some "k", "daily"⟩]

/-- Ten distinct requests for the retry scenario. -/
def reqs10 : List FetchRequest :=
  [⟨some "l0", "daily"⟩, ⟨some "l1", "daily"⟩, ⟨some "l2", "daily"⟩,
   ⟨some "l3", "daily"⟩, ⟨some "l4", "daily"⟩, ⟨some "l5", "daily"⟩,
   ⟨some "l6", "daily"⟩, ⟨some "l7", "daily"⟩, ⟨some "l8", "daily"⟩,
   ⟨some "l9", "daily"⟩]

/-- The spec's retry scenario: on the first pass the requests at positions
2, 5 and 7 come back empty (failed); on the retry pass the second retried
request (position 1 of the retry list, i.e. original `l5`) succeeds. -/
def netC5 : Nat → Nat → List Record :=
  fun round i =>
    match round with
    | 0 => if i = 2 || i = 5 || i = 7 then [] else [dummyRec]
    | _ + 1 => if i = 1 then [dummyRec] else []

/-- An article's title parses without a `TypeError`: the `h2.h3 a` selector
found an anchor and its trimmed text splits on `/` into at least two
fields. -/
def hasParsableTitle (a : Article) : Bool :=
  match a.titleElement with
  | none => false
  | some t => decide (2 ≤ (splitChar '/' (jsTrimList t.text.data)).length)

/-- The scheduling identity of a result. -/
def resultPair (r : FetchResult) : Option String × String :=
  (r.language, r.timeRange)

/-- The scheduling identity of a request. -/
def requestPair (r : FetchRequest) : Option String × String :=
  (r.language, r.timeRange)

/-- The fulfilment values of one `fetchMultipleConcurrent` call, spelled
positionally: the promise created for the i-th request (creation index
`k + i`) fulfils to `mkFetchResult request (net (k + i))`. -/
def resultsFrom (net : Nat → List Record) : Nat → List FetchRequest → List FetchResult
  | _, [] => []
  | k, r :: rest => mkFetchResult r (net k) :: resultsFrom net (k + 1) rest

/-- `netC5` with every round from 2 on blanked out; rounds 0 and 1 agree
with `netC5`. -/
def netC5Cut : Nat → Nat → List Record :=
  fun round i => if 2 ≤ round then [] else netC5 round i

/-!
## Helper lemmas
-/

theorem mapGet_mapSet_self {α : Type} (m : CacheMap α) (k : String)
    (v : CacheEntry α) : mapGet (mapSet m k v) k = some v := by
  induction m with
  | nil => simp [mapSet, mapGet]
  | cons hd tl ih =>
    obtain ⟨k₀, v₀⟩ := hd
    by_cases h : k₀ = k
    · simp [mapSet, mapGet, h]
    · simp [mapSet, mapGet, h, ih]

theorem getValid_cacheSet_self {α : Type} (m : CacheMap α)
    (language : Option String) (timeRange : String) (data : α)
    (ttl t₀ now : Int) :
    getValid (cacheSet m language timeRange data ttl t₀) language timeRange none now
      = if now - t₀ < resolveTTL ttl none then some data else none := by
  unfold getValid cacheGet cacheSet
  rw [mapGet_mapSet_self]
  by_cases h : now - t₀ < resolveTTL ttl none
  · simp [isValid, h]
  · simp [isValid, h]

theorem parseArticle_isOk (a : Article) :
    (parseArticle a).isOk = hasParsableTitle a := by
  cases ht : a.titleElement with
  | none => simp [parseArticle, hasParsableTitle, ht, Except.isOk, Except.toBool]
  | some t =>
    cases hg : (splitChar '/' (jsTrimList t.text.data)).get? 1 with
    | none =>
      have hlen : (splitChar '/' (jsTrimList t.text.data)).length ≤ 1 :=
        List.get?_eq_none.mp hg
      simp only [parseArticle, hasParsableTitle, ht, hg, Option.map_none']
      simp [Except.isOk, Except.toBool]
      omega
    | some x =>
      have hlen : 1 < (splitChar '/' (jsTrimList t.text.data)).length := by
        by_contra hcon
        rw [List.get?_eq_none.mpr (by omega)] at hg
        exact Option.noConfusion hg
      simp only [parseArticle, hasParsableTitle, ht, hg, Option.map_some']
      simp [Except.isOk, Except.toBool]
      omega

theorem parse_ok_of_all_parsable (articles : List Article)
    (h : ∀ a ∈ articles, hasParsableTitle a = true) :
    (parseTrendingHTML articles).isOk = true := by
  induction articles with
  | nil => rfl
  | cons a rest ih =>
    have ha : (parseArticle a).isOk = true := by
      rw [parseArticle_isOk]; exact h a (List.mem_cons_self a rest)
    have hrest := ih (fun b hb => h b (List.mem_cons_of_mem a hb))
    cases hpa : parseArticle a with
    | error e => rw [hpa] at ha; exact absurd ha (by simp [Except.isOk, Except.toBool])
    | ok r =>
      cases hpr : parseTrendingHTML rest with
      | error e => rw [hpr] at hrest; exact absurd hrest (by simp [Except.isOk, Except.toBool])
      | ok rs => simp [parseTrendingHTML, hpa, hpr, Except.isOk, Except.toBool]

theorem parse_aborts_of_mem_bad (articles : List Article) (a : Article)
    (hmem : a ∈ articles) (hbad : hasParsableTitle a = false) :
    (parseTrendingHTML articles).isOk = false := by
  induction articles with
  | nil => exact absurd hmem (List.not_mem_nil a)
  | cons x rest ih =>
    cases hpx : parseArticle x with
    | error e => simp [parseTrendingHTML, hpx, Except.isOk, Except.toBool]
    | ok r =>
      have hx : hasParsableTitle x = true := by
        rw [← parseArticle_isOk, hpx]; rfl
      have hmem' : a ∈ rest := by
        rcases List.mem_cons.mp hmem with h | h
        · subst h; rw [hx] at hbad; exact absurd hbad (by simp)
        · exact h
      have := ih hmem'
      cases hpr : parseTrendingHTML rest with
      | error e => simp [parseTrendingHTML, hpx, hpr, Except.isOk, Except.toBool]
      | ok rs => rw [hpr] at this; exact absurd this (by simp [Except.isOk, Except.toBool])

theorem string_slash_append_drop (x y : String) :
    x ++ "/" ++ y = x ++ "/" ++
      (⟨(x ++ "/" ++ y).data.drop (x.data.length + 1)⟩ : String) := by
  have hdata : (x ++ "/" ++ y).data = (x.data ++ ['/']) ++ y.data := by
    rw [String.data_append, String.data_append]
  have hdrop : (x ++ "/" ++ y).data.drop (x.data.length + 1) = y.data := by
    rw [hdata]
    have hl : x.data.length + 1 = (x.data ++ ['/']).length := by simp
    rw [hl, List.drop_left]
  rw [hdrop]

theorem parseArticle_ok_fullname (a : Article) (r : Record)
    (h : parseArticle a = .ok r) :
    r.full_name = r.owner ++ "/" ++
      (⟨r.full_name.data.drop (r.owner.data.length + 1)⟩ : String) := by
  cases ht : a.titleElement with
  | none =>
    rw [parseArticle.eq_def, ht] at h
    exact Except.noConfusion h
  | some t =>
    cases hg : (splitChar '/' (jsTrimList t.text.data)).get? 1 with
    | none =>
      rw [parseArticle.eq_def, ht] at h
      simp only [hg, Option.map_none'] at h
      exact Except.noConfusion h
    | some repoL =>
      rw [parseArticle.eq_def, ht] at h
      simp only [hg, Option.map_some'] at h
      have hr := (Except.ok.injEq _ _).mp h.symm
      subst hr
      exact string_slash_append_drop _ _

theorem parse_ok_shape (articles : List Article) (l : List Record)
    (h : parseTrendingHTML articles = .ok l) :
    l.length = articles.length ∧
    ∀ r ∈ l, r.full_name = r.owner ++ "/" ++
      (⟨r.full_name.data.drop (r.owner.data.length + 1)⟩ : String) := by
  induction articles generalizing l with
  | nil =>
    rw [parseTrendingHTML] at h
    have : l = [] := by cases h; rfl
    subst this
    exact ⟨rfl, by intro r hr; exact absurd hr (List.not_mem_nil r)⟩
  | cons a rest ih =>
    rw [parseTrendingHTML] at h
    cases hpa : parseArticle a with
    | error e => rw [hpa] at h; exact Except.noConfusion h
    | ok r =>
      rw [hpa] at h
      cases hpr : parseTrendingHTML rest with
      | error e => rw [hpr] at h; exact Except.noConfusion h
      | ok rs =>
        rw [hpr] at h
        have : l = r :: rs := by cases h; rfl
        subst this
        obtain ⟨hlen, hshape⟩ := ih rs hpr
        refine ⟨by simp [hlen], ?_⟩
        intro q hq
        rcases List.mem_cons.mp hq with hqr | hqs
        · subst hqr; exact parseArticle_ok_fullname a q hpa
        · exact hshape q hqs

theorem raceStep_resultsArr (st : SimState) :
    (raceStep st).resultsArr = st.resultsArr := by
  unfold raceStep
  split
  · rfl
  · split <;> rfl

theorem raceStep_created (st : SimState) :
    (raceStep st).created = st.created := by
  unfold raceStep
  split
  · rfl
  · split <;> rfl

theorem windowStep_resultsArr (limit idx : Nat) (st : SimState) :
    (windowStep limit idx st).resultsArr = st.resultsArr := by
  unfold windowStep
  split
  · dsimp only
    split
    · exact raceStep_resultsArr _
    · rfl
  · rfl

theorem windowStep_created (limit idx : Nat) (st : SimState) :
    (windowStep limit idx st).created = st.created := by
  unfold windowStep
  split
  · dsimp only
    split
    · exact raceStep_created _
    · rfl
  · rfl

theorem simStep_resultsArr (net : Nat → List Record) (limit : Nat)
    (st : SimState) (req : FetchRequest) :
    (simStep net limit st req).resultsArr
      = st.resultsArr ++ [mkFetchResult req (net st.created)] := by
  unfold simStep
  exact windowStep_resultsArr ..

theorem simStep_created (net : Nat → List Record) (limit : Nat)
    (st : SimState) (req : FetchRequest) :
    (simStep net limit st req).created = st.created + 1 := by
  unfold simStep
  exact windowStep_created ..

theorem sim_foldl_resultsArr (net : Nat → List Record) (limit : Nat) :
    ∀ (requests : List FetchRequest) (st : SimState),
      (requests.foldl (simStep net limit) st).resultsArr
        = st.resultsArr ++ resultsFrom net st.created requests := by
  intro requests
  induction requests with
  | nil => intro st; simp [resultsFrom]
  | cons r rest ih =>
    intro st
    rw [List.foldl_cons, ih, simStep_resultsArr, simStep_created]
    simp [resultsFrom]

theorem fetchManyResults_eq_resultsFrom (net : Nat → List Record)
    (requests : List FetchRequest) (limit : Nat) :
    fetchManyResults net requests limit = resultsFrom net 0 requests := by
  unfold fetchManyResults simFetchMany
  rw [sim_foldl_resultsArr]
  rfl

theorem resultsFrom_length (net : Nat → List Record) :
    ∀ (k : Nat) (requests : List FetchRequest),
      (resultsFrom net k requests).length = requests.length := by
  intro k requests
  induction requests generalizing k with
  | nil => rfl
  | cons r rest ih => simp [resultsFrom, ih]

theorem resultsFrom_get? (net : Nat → List Record) :
    ∀ (requests : List FetchRequest) (k i : Nat),
      (resultsFrom net k requests).get? i
        = (requests.get? i).map (fun r => mkFetchResult r (net (k + i))) := by
  intro requests
  induction requests with
  | nil => intro k i; simp [resultsFrom]
  | cons r rest ih =>
    intro k i
    cases i with
    | zero => simp [resultsFrom]
    | succ j =>
      have := ih (k + 1) j
      simp only [resultsFrom, List.get?_cons_succ, this]
      have harith : k + 1 + j = k + (j + 1) := by omega
      rw [harith]

theorem resultsFrom_congr (net₁ net₂ : Nat → List Record)
    (h : ∀ i, net₁ i = net₂ i) :
    ∀ (k : Nat) (requests : List FetchRequest),
      resultsFrom net₁ k requests = resultsFrom net₂ k requests := by
  intro k requests
  induction requests generalizing k with
  | nil => rfl
  | cons r rest ih => simp [resultsFrom, h, ih]

theorem replaceFirstMatch_length (rr : FetchResult) :
    ∀ (l : List FetchResult), (replaceFirstMatch rr l).length = l.length := by
  intro l
  induction l with
  | nil => rfl
  | cons r rest ih =>
    by_cases h : (r.language == rr.language && r.timeRange == rr.timeRange) = true
    · simp [replaceFirstMatch, h]
    · simp [replaceFirstMatch, h, ih]

theorem replaceFirstMatch_pair (rr : FetchResult) :
    ∀ (l : List FetchResult) (i : Nat),
      ((replaceFirstMatch rr l).get? i).map resultPair
        = (l.get? i).map resultPair := by
  intro l
  induction l with
  | nil => intro i; rfl
  | cons r rest ih =>
    intro i
    by_cases h : (r.language == rr.language && r.timeRange == rr.timeRange) = true
    · have hlang : r.language = rr.language := by
        have hb := (Bool.and_eq_true _ _).mp h
        exact eq_of_beq hb.1
      have htr : r.timeRange = rr.timeRange := by
        have hb := (Bool.and_eq_true _ _).mp h
        exact eq_of_beq hb.2
      cases i with
      | zero =>
        rw [replaceFirstMatch, if_pos h]
        simp [resultPair, hlang, htr]
      | succ j =>
        rw [replaceFirstMatch, if_pos h, List.get?_cons_succ, List.get?_cons_succ]
    · cases i with
      | zero => rw [replaceFirstMatch, if_neg h, List.get?_cons_zero, List.get?_cons_zero]
      | succ j =>
        rw [replaceFirstMatch, if_neg h, List.get?_cons_succ,
          List.get?_cons_succ, ih]

theorem spliceBack_length (retryResults : List FetchResult) :
    ∀ (results : List FetchResult),
      (spliceBack results retryResults).length = results.length := by
  induction retryResults with
  | nil => intro results; rfl
  | cons rr rest ih =>
    intro results
    unfold spliceBack at ih ⊢
    rw [List.foldl_cons, ih, replaceFirstMatch_length]

theorem spliceBack_pair (retryResults : List FetchResult) :
    ∀ (results : List FetchResult) (i : Nat),
      ((spliceBack results retryResults).get? i).map resultPair
        = ((results).get? i).map resultPair := by
  induction retryResults with
  | nil => intro results i; rfl
  | cons rr rest ih =>
    intro results i
    unfold spliceBack at ih ⊢
    rw [List.foldl_cons, ih, replaceFirstMatch_pair]

theorem fetchManyResults_pair (net : Nat → List Record)
    (requests : List FetchRequest) (limit : Nat) (i : Nat) :
    ((fetchManyResults net requests limit).get? i).map resultPair
      = (requests.get? i).map requestPair := by
  rw [fetchManyResults_eq_resultsFrom, resultsFrom_get?]
  cases hq : requests.get? i with
  | none => rfl
  | some r => simp [mkFetchResult, resultPair, requestPair]

theorem fetchWithRetry_length (net : Nat → Nat → List Record) (limit : Nat) :
    ∀ (retryCount round : Nat) (requests : List FetchRequest),
      (fetchWithRetry net limit round retryCount requests).length
        = requests.length := by
  intro retryCount
  induction retryCount with
  | zero =>
    intro round requests
    rw [fetchWithRetry, fetchManyResults_eq_resultsFrom, resultsFrom_length]
  | succ rc ih =>
    intro round requests
    rw [fetchWithRetry]
    split
    · rw [spliceBack_length, fetchManyResults_eq_resultsFrom, resultsFrom_length]
    · rw [fetchManyResults_eq_resultsFrom, resultsFrom_length]

theorem fetchWithRetry_pair (net : Nat → Nat → List Record) (limit : Nat) :
    ∀ (retryCount round : Nat) (requests : List FetchRequest) (i : Nat),
      ((fetchWithRetry net limit round retryCount requests).get? i).map resultPair
        = (requests.get? i).map requestPair := by
  intro retryCount
  induction retryCount with
  | zero =>
    intro round requests i
    rw [fetchWithRetry, fetchManyResults_pair]
  | succ rc ih =>
    intro round requests i
    rw [fetchWithRetry]
    split
    · rw [spliceBack_pair, fetchManyResults_pair]
    · rw [fetchManyResults_pair]

theorem fetchWithRetry_rounds_bounded (limit : Nat) :
    ∀ (retryCount : Nat) (net₁ net₂ : Nat → Nat → List Record) (round : Nat)
      (requests : List FetchRequest),
      (∀ k i, k ≤ retryCount → net₁ (round + k) i = net₂ (round + k) i) →
      fetchWithRetry net₁ limit round retryCount requests
        = fetchWithRetry net₂ limit round retryCount requests := by
  intro retryCount
  induction retryCount with
  | zero =>
    intro net₁ net₂ round requests h
    rw [fetchWithRetry, fetchWithRetry,
      fetchManyResults_eq_resultsFrom, fetchManyResults_eq_resultsFrom]
    exact resultsFrom_congr _ _ (fun i => h 0 i (Nat.le_refl 0)) 0 requests
  | succ rc ih =>
    intro net₁ net₂ round requests h
    have hround : ∀ i, net₁ round i = net₂ round i := fun i =>
      h 0 i (Nat.zero_le _)
    have hmany : fetchManyResults (net₁ round) requests limit
        = fetchManyResults (net₂ round) requests limit := by
      rw [fetchManyResults_eq_resultsFrom, fetchManyResults_eq_resultsFrom]
      exact resultsFrom_congr _ _ hround 0 requests
    have hrec : ∀ (failed : List FetchRequest),
        fetchWithRetry net₁ limit (round + 1) rc failed
          = fetchWithRetry net₂ limit (round + 1) rc failed := by
      intro failed
      refine ih net₁ net₂ (round + 1) failed ?_
      intro k i hk
      have harith : round + 1 + k = round + (k + 1) := by omega
      rw [harith]
      exact h (k + 1) i (by omega)
    rw [fetchWithRetry, fetchWithRetry, hmany, hrec]

/-!
## Claim theorems
-/

/-- C3: the concurrency ceiling is not enforced.  With 12 requests and
`concurrencyLimit = 5`, under a slow-network schedule the simulated run's
in-flight samples are `[1,…,8,9,9,10,11]`: the loop launches 9 requests
before its first `await` (requests start at promise creation, but nothing
is pushed to `executing` until `results.length ≥ 5`, and no race happens
until `executing.length ≥ 5`), and because the `splice` removes the
just-created promise instead of the settled one, the window retains a
settled promise and never blocks again — 11 requests end up outstanding at
once, far more than 5. -/
theorem C3_concurrency_limit_violated :
    (simFetchMany (fun _ => []) reqs12 5).trace
        = [1, 2, 3, 4, 5, 6, 7, 8, 9, 9, 10, 11]
    ∧ ((simFetchMany (fun _ => []) reqs12 5).trace.any
        (fun n => decide (5 < n))) = true := by
  exact ⟨by decide, by decide⟩

/-- C4: `fetchMultipleConcurrent` resolves to one result per request, in
input order regardless of completion order: the i-th result is exactly the
fulfilment value `{...requests[i], repos, success: repos.length > 0}` built
from the i-th request's fetch, so no request's result is dropped and each
completes as a success or a caught failure. -/
theorem C4_results_positionally_aligned :
    ∀ (net : Nat → List Record) (requests : List FetchRequest) (limit : Nat),
      (fetchManyResults net requests limit).length = requests.length
      ∧ (∀ (i : Nat),
          (fetchManyResults net requests limit).get? i
            = (requests.get? i).map (fun r => mkFetchResult r (net i)))
      ∧ (∀ (i : Nat) (res : FetchResult),
          (fetchManyResults net requests limit).get? i = some res →
          res.success = decide (0 < res.repos.length)) := by
  intro net requests limit
  refine ⟨?_, ?_, ?_⟩
  · rw [fetchManyResults_eq_resultsFrom, resultsFrom_length]
  · intro i
    rw [fetchManyResults_eq_resultsFrom, resultsFrom_get?]
    simp
  · intro i res hres
    rw [fetchManyResults_eq_resultsFrom, resultsFrom_get?] at hres
    cases hq : requests.get? i with
    | none => rw [hq] at hres; exact Option.noConfusion hres
    | some r =>
      rw [hq] at hres
      have : mkFetchResult r (net (0 + i)) = res := by
        simpa using hres
      subst this
      rfl

/-- C4 witness: the success-flag conjunct applied to the first result of a
concrete 12-request run. -/
theorem C4_witness_first_result :
    (mkFetchResult ⟨none, "daily"⟩ [dummyRec]).success
      = decide (0 < (mkFetchResult ⟨none, "daily"⟩ [dummyRec]).repos.length) :=
  (C4_results_positionally_aligned (fun _ => [dummyRec]) reqs12 5).2.2 0
    (mkFetchResult ⟨none, "daily"⟩ [dummyRec]) (by decide)

/-- C5 counterexample to the claim's arithmetic: in the spec's own scenario
— 10 requests, `retryRounds = 1`, exactly 3 first-pass failures of which
exactly 1 succeeds on the retry — the final sequence has 8 successes and
2 failures (7 first-pass successes + 1 recovered), not 9. -/
theorem C5_counterexample_nine_successes :
    ((fetchManyResults (netC5 0) reqs10 5).filter (fun r => !r.success)).length = 3
    ∧ ((fetchWithRetry netC5 5 1 0
          (((fetchManyResults (netC5 0) reqs10 5).filter (fun r => !r.success)).map
            (fun r => ({ language := r.language, timeRange := r.timeRange } : FetchRequest)))).filter
        (fun r => r.success)).length = 1
    ∧ ((fetchWithRetry netC5 5 0 1 reqs10).filter (fun r => r.success)).length = 8
    ∧ ¬ ((fetchWithRetry netC5 5 0 1 reqs10).filter (fun r => r.success)).length = 9 := by
  exact ⟨by decide, by decide, by decide, by decide⟩

/-- C5 (amended): `fetchWithRetry` retries exactly the `succeeded = false`
subset with `retryRounds - 1`, splicing retry outcomes back at original
positions by `(subject, period)` identity — so the output always has one
result per input request with the i-th result's identity equal to the i-th
request's; the recursion consults the network only for rounds
`0 … retryRounds` (at most `retryRounds + 1` attempts per request); and in
the spec's scenario (10 requests, `retryRounds = 1`, 3 first-pass failures,
1 retry success) the final sequence has 8 successes and 2 failures whose
`(subject, period)` equal their originals. -/
theorem C5_retry_splice_and_bound :
    (∀ (net : Nat → Nat → List Record) (limit retryCount round : Nat)
        (requests : List FetchRequest),
      (fetchWithRetry net limit round retryCount requests).length
          = requests.length
      ∧ ∀ (i : Nat),
          ((fetchWithRetry net limit round retryCount requests).get? i).map resultPair
            = (requests.get? i).map requestPair)
    ∧ (∀ (net₁ net₂ : Nat → Nat → List Record) (limit retryCount round : Nat)
        (requests : List FetchRequest),
      (∀ k i, k ≤ retryCount → net₁ (round + k) i = net₂ (round + k) i) →
      fetchWithRetry net₁ limit round retryCount requests
        = fetchWithRetry net₂ limit round retryCount requests)
    ∧ ((fetchWithRetry netC5 5 0 1 reqs10).filter (fun r => r.success)).length = 8
    ∧ ((fetchWithRetry netC5 5 0 1 reqs10).filter (fun r => !r.success)).map resultPair
        = [(some "l2", "daily"), (some "l7", "daily")] := by
  refine ⟨?_, ?_, by decide, by decide⟩
  · intro net limit retryCount round requests
    exact ⟨fetchWithRetry_length net limit retryCount round requests,
      fetchWithRetry_pair net limit retryCount round requests⟩
  · intro net₁ net₂ limit retryCount round requests h
    exact fetchWithRetry_rounds_bounded limit retryCount net₁ net₂ round requests h

/-- C5 witness: rounds beyond the retry budget are never consulted — the
run with `retryRounds = 1` is unchanged when every round from 2 on is
blanked out. -/
theorem C5_witness_round_bound :
    fetchWithRetry netC5 5 0 1 reqs10 = fetchWithRetry netC5Cut 5 0 1 reqs10 :=
  C5_retry_splice_and_bound.2.1 netC5 netC5Cut 5 1 0 reqs10
    (by
      intro k i hk
      match k, hk with
      | 0, _ => rfl
      | 1, _ => rfl)

/-- C1 counterexample: an entry node whose `h2.h3 a` selector finds nothing
makes `parseTrendingHTML` raise (`titleElement.textContent` is a
`TypeError` on `null`), aborting the whole parse — including a later entry
that parses fine on its own.  So the parser does not return normally on
every input document. -/
theorem C1_counterexample_title_throw_aborts :
    (parseTrendingHTML [titlelessArticle, goodArticle]).isOk = false
    ∧ (parseTrendingHTML [goodArticle]).isOk = true := by
  exact ⟨by decide, by decide⟩

/-- C1 (amended): a wholly malformed document (no entry nodes) yields the
empty sequence, and the parse returns normally when every entry has a title
anchor whose trimmed text contains a `/`; but an entry missing its title
anchor (or whose title has no `/`) makes the entire parse raise, so a parse
error inside one entry does abort processing of all other entries. -/
theorem C1_parse_totality_characterised :
    parseTrendingHTML [] = .ok []
    ∧ (∀ (articles : List Article), (∀ a ∈ articles, hasParsableTitle a = true) →
        (parseTrendingHTML articles).isOk = true)
    ∧ (∀ (articles : List Article) (a : Article), a ∈ articles →
        hasParsableTitle a = false → (parseTrendingHTML articles).isOk = false) := by
  exact ⟨rfl, parse_ok_of_all_parsable, parse_aborts_of_mem_bad⟩

/-- C1 witness: the amended theorem applied to a one-entry document with a
parsable title. -/
theorem C1_witness_good_document :
    (parseTrendingHTML [goodArticle]).isOk = true :=
  C1_parse_totality_characterised.2.1 [goodArticle] (by decide)

/-- C2 counterexample: an entry whose title text contains no `/` is not
omitted from the output — `repo` is `undefined` after destructuring and
`repo.trim()` throws, so the whole parse raises instead of returning a
sequence without that entry. -/
theorem C2_counterexample_slashless_title_throws :
    parseTrendingHTML [slashlessArticle] = .error "TypeError: repo is undefined" := by
  rfl

/-- C2 (amended): a title without `/` makes the whole parse raise rather
than dropping the entry; whenever the parse does return a sequence, nothing
was omitted (one record per entry node) and every record's `full_name` is
its `owner` followed by `/` and a name component — no record carries an
undefined owner or repo-name. -/
theorem C2_ok_records_have_owner_and_name :
    ∀ (articles : List Article) (l : List Record),
      parseTrendingHTML articles = .ok l →
      l.length = articles.length ∧
      ∀ r ∈ l, r.full_name = r.owner ++ "/" ++
        (⟨r.full_name.data.drop (r.owner.data.length + 1)⟩ : String) :=
  parse_ok_shape

/-- C2 witness: the amended theorem applied to the concrete one-entry
document. -/
theorem C2_witness_good_document :
    ((parseTrendingHTML [goodArticle]).toOption.getD []).length = 1 :=
  (C2_ok_records_have_owner_and_name [goodArticle]
    ((parseTrendingHTML [goodArticle]).toOption.getD []) (by rfl)).1

/-- C8: period-stars extraction — text matching the phrase pattern, e.g.
`"42 stars today"`, yields `(42, "today")`; text with no regex match yields
`(0, "")`; the four locator strategies are tried in order with the first
match winning, and the count/label pair comes from the one regular
expression. -/
theorem C8_period_stars_extraction :
    periodStarsOf "42 stars today" = (42, "today")
    ∧ (∀ (text : String), periodStarsMatch text = none →
        periodStarsOf text = (0, ""))
    ∧ (∀ (spans : List SpanEl) (s : SpanEl),
        (spans.find? stratStructural = some s → selectPeriodSpan spans = some s)
        ∧ (spans.find? stratStructural = none → spans.find? stratRelaxed = some s →
            selectPeriodSpan spans = some s)
        ∧ (spans.find? stratStructural = none → spans.find? stratRelaxed = none →
            spans.find? stratAttr = some s → selectPeriodSpan spans = some s))
    ∧ (∀ (spans : List SpanEl),
        spans.find? stratStructural = none → spans.find? stratRelaxed = none →
        spans.find? stratAttr = none →
        selectPeriodSpan spans = spans.find? stratText) := by
  refine ⟨by decide, ?_, ?_, ?_⟩
  · intro text h
    simp [periodStarsOf, h]
  · intro spans s
    refine ⟨?_, ?_, ?_⟩
    · intro h1; simp [selectPeriodSpan, h1]
    · intro h1 h2; simp [selectPeriodSpan, h1, h2]
    · intro h1 h2 h3; simp [selectPeriodSpan, h1, h2, h3]
  · intro spans h1 h2 h3
    simp [selectPeriodSpan, h1, h2, h3]

/-- C8 witness: non-matching text defaults to `(0, "")`, and the structural
strategy picks the period span in the concrete article. -/
theorem C8_witness_concrete :
    periodStarsOf "trending repository" = (0, "")
    ∧ selectPeriodSpan [goodSpanPeriod] = some goodSpanPeriod :=
  ⟨C8_period_stars_extraction.2.1 "trending repository" (by decide),
   (C8_period_stars_extraction.2.2.1 [goodSpanPeriod] goodSpanPeriod).1 (by decide)⟩

/-- C6: `fetchTrendingRepos` never throws; it returns the empty sequence
and leaves the cache untouched on every failure (timeout abort, transport
error, non-2xx status, and a `TypeError` escaping the parser) and on an
empty parse result; it writes the cache exactly on a 2xx response whose
parse yields a non-empty record list, storing that list under the
request's key. -/
theorem C6_fetchOne_failure_and_cache :
    ∀ (cache : CacheMap (List Record)) (language : Option String)
      (timeRange : String) (now : Int),
      (fetchTrendingRepos cache language timeRange .timeout now = ([], cache))
      ∧ (∀ (msg : String),
          fetchTrendingRepos cache language timeRange (.networkError msg) now
            = ([], cache))
      ∧ (∀ (status : Nat) (body : List Article),
          ¬ (200 ≤ status ∧ status < 300) →
          fetchTrendingRepos cache language timeRange (.response status body) now
            = ([], cache))
      ∧ (∀ (status : Nat) (body : List Article) (e : String),
          parseTrendingHTML body = .error e →
          fetchTrendingRepos cache language timeRange (.response status body) now
            = ([], cache))
      ∧ (∀ (status : Nat) (body : List Article),
          200 ≤ status → status < 300 → parseTrendingHTML body = .ok [] →
          fetchTrendingRepos cache language timeRange (.response status body) now
            = ([], cache))
      ∧ (∀ (status : Nat) (body : List Article) (repos : List Record),
          200 ≤ status → status < 300 → parseTrendingHTML body = .ok repos →
          repos ≠ [] →
          fetchTrendingRepos cache language timeRange (.response status body) now
            = (repos, cacheSet cache language timeRange repos jsDefaultTTL now)) := by
  intro cache language timeRange now
  refine ⟨rfl, fun msg => rfl, ?_, ?_, ?_, ?_⟩
  · intro status body hnotok
    simp [fetchTrendingRepos, fetchBody, hnotok]
  · intro status body e hparse
    by_cases hok : 200 ≤ status ∧ status < 300
    · simp [fetchTrendingRepos, fetchBody, hok, hparse]
    · simp [fetchTrendingRepos, fetchBody, hok]
  · intro status body h₁ h₂ hparse
    simp [fetchTrendingRepos, fetchBody, h₁, h₂, hparse]
  · intro status body repos h₁ h₂ hparse hne
    have hlen : 0 < repos.length := List.length_pos.mpr hne
    simp [fetchTrendingRepos, fetchBody, h₁, h₂, hparse, hlen]

/-- C6 witness: the success conjunct at a concrete 200 response with one
well-formed entry, and the failure conjunct at a concrete 404. -/
theorem C6_witness_concrete :
    fetchTrendingRepos [] none "daily" (.response 200 [goodArticle]) 0
      = ((parseTrendingHTML [goodArticle]).toOption.getD [],
         cacheSet [] none "daily"
           ((parseTrendingHTML [goodArticle]).toOption.getD []) jsDefaultTTL 0)
    ∧ fetchTrendingRepos [] none "daily" (.response 404 []) 0 = ([], []) :=
  ⟨(C6_fetchOne_failure_and_cache [] none "daily" 0).2.2.2.2.2 200 [goodArticle]
      ((parseTrendingHTML [goodArticle]).toOption.getD [])
      (by decide) (by decide) (by rfl) (by decide),
   (C6_fetchOne_failure_and_cache [] none "daily" 0).2.2.1 404 [] (by decide)⟩

/-- C9: `fetchWithCache` returns the cached data whenever `getValid`
succeeds — performing no fetch (the outcome of the network is irrelevant)
and leaving the cache unchanged; on a cache miss it returns exactly what
`fetchTrendingRepos` returns, with no further cache consultation. -/
theorem C9_cache_first_read :
    ∀ (cache : CacheMap (List Record)) (language : Option String)
      (timeRange : String) (now : Int),
      (∀ (d : List Record) (o₁ o₂ : FetchOutcome),
        getValid cache language timeRange none now = some d →
        fetchWithCache cache language timeRange o₁ now = (d, cache)
        ∧ fetchWithCache cache language timeRange o₁ now
            = fetchWithCache cache language timeRange o₂ now)
      ∧ (∀ (o : FetchOutcome),
        getValid cache language timeRange none now = none →
        fetchWithCache cache language timeRange o now
          = fetchTrendingRepos cache language timeRange o now) := by
  intro cache language timeRange now
  constructor
  · intro d o₁ o₂ hvalid
    constructor
    · simp [fetchWithCache, hvalid]
    · simp [fetchWithCache, hvalid]
  · intro o hmiss
    simp [fetchWithCache, hmiss]

/-- C9 witness: a concrete warm cache is returned as-is regardless of what
the network would have produced. -/
theorem C9_witness_warm_cache :
    fetchWithCache (cacheSet [] none "daily" [dummyRec] jsDefaultTTL 0)
        none "daily" .timeout 0
      = ([dummyRec], cacheSet [] none "daily" [dummyRec] jsDefaultTTL 0) :=
  ((C9_cache_first_read (cacheSet [] none "daily" [dummyRec] jsDefaultTTL 0)
      none "daily" 0).1 [dummyRec] .timeout .timeout (by decide)).1

/-- C10: cache key generation is not injective over distinct subjects — for
every period `p`, `generateKey null p` and `generateKey "all" p` are both
`"all-" ++ p`, so `get`/`set` for the null (overall) subject and for a
subject literally named `"all"` alias the same cache entry. -/
theorem C10_generateKey_null_all_alias :
    ∀ (p : String),
      generateKey none p = "all-" ++ p ∧
      generateKey (some "all") p = "all-" ++ p ∧
      ∀ (m : CacheMap (List Record)) (data : List Record) (ttl now : Int),
        cacheGet (cacheSet m (some "all") p data ttl now) none p
          = some ⟨data, now, ttl⟩ := by
  intro p
  have hkey : generateKey (some "all") p = generateKey none p := by
    simp [generateKey]
  refine ⟨by simp [generateKey], by simp [generateKey], ?_⟩
  intro m data ttl now
  unfold cacheGet cacheSet
  rw [hkey]
  exact mapGet_mapSet_self ..

/-- C7 counterexample: an entry stored with `ttl = 0` (storedAt = 0,
queried at now = 0) fails the claimed validity test `now - storedAt < ttl`,
yet `getValid` returns the stored data — the `||` chain silently replaces a
zero TTL with the 10-minute default. -/
theorem C7_counterexample_zero_ttl :
    getValid (cacheSet ([] : CacheMap Nat) none "daily" 7 0 0) none "daily" none 0
      = some 7
    ∧ ¬ ((0 : Int) - 0 < 0) := by
  exact ⟨by decide, by decide⟩

/-- C7 (amended): `set` followed immediately by `getValid` (default TTL)
returns the stored data unchanged; and validity is exactly
`now - storedAt < T` where `T` is the entry's `ttl` when it is nonzero and
the 10-minute default otherwise (`customTTL || entry.ttl || defaultTTL`
treats a zero TTL as unset). -/
theorem C7_set_getValid_roundtrip_and_expiry :
    (∀ (α : Type) (m : CacheMap α) (language : Option String)
        (timeRange : String) (data : α) (now : Int),
      getValid (cacheSet m language timeRange data jsDefaultTTL now)
          language timeRange none now = some data)
    ∧ (∀ (α : Type) (m : CacheMap α) (language : Option String)
        (timeRange : String) (data : α) (ttl t₀ now : Int), ttl ≠ 0 →
      getValid (cacheSet m language timeRange data ttl t₀) language timeRange none now
        = if now - t₀ < ttl then some data else none)
    ∧ (∀ (α : Type) (m : CacheMap α) (language : Option String)
        (timeRange : String) (data : α) (t₀ now : Int),
      getValid (cacheSet m language timeRange data 0 t₀) language timeRange none now
        = if now - t₀ < jsDefaultTTL then some data else none) := by
  refine ⟨?_, ?_, ?_⟩
  · intro α m language timeRange data now
    rw [getValid_cacheSet_self]
    simp [resolveTTL, jsDefaultTTL]
  · intro α m language timeRange data ttl t₀ now h
    rw [getValid_cacheSet_self]
    simp [resolveTTL, h]
  · intro α m language timeRange data t₀ now
    rw [getValid_cacheSet_self]
    simp [resolveTTL]

/-- C7 witness: a concrete expired entry — `ttl = 5`, stored at 0, read at
10 — comes back absent. -/
theorem C7_witness_expired_entry :
    getValid (cacheSet ([] : CacheMap Nat) none "weekly" 3 5 0) none "weekly" none 10
      = none := by
  have h := C7_set_getValid_roundtrip_and_expiry.2.1 Nat [] none "weekly" 3 5 0 10
    (by decide)
  simpa using h

end GHTrend
